import Mathlib

/-!
Shallow embedding of the two scripts of the ClickIt repository,
src/scripts/generate_signatures.py and src/scripts/generate_eddsa_keys.py,
together with theorems settling the specification claims about them.

Text is modelled as List Char.  Python string operations used by the code
(split('\n'), '\n'.join, substring containment with the in operator,
rstrip(chars), strip()) are embedded as executable functions below.
-/

/-- Python list-membership test for a prefix: isPrefixL needle hay is true
iff needle is an initial segment of hay. -/
def isPrefixL : List Char → List Char → Bool
  | [], _ => true
  | _ :: _, [] => false
  | a :: as, b :: bs => a == b && isPrefixL as bs

/-- Python substring containment (needle in hay): true iff needle occurs
contiguously in hay.  The empty needle is contained in everything, as in
Python. -/
def containsL (needle : List Char) : List Char → Bool
  | [] => isPrefixL needle []
  | c :: rest => isPrefixL needle (c :: rest) || containsL needle rest

/-- Python content.split('\n'): cut a character list at every newline.
Always returns a non-empty list of newline-free segments. -/
def splitNL : List Char → List (List Char)
  | [] => [[]]
  | c :: rest =>
    if c == '\n' then [] :: splitNL rest
    else
      match splitNL rest with
      | [] => [[c]]
      | l :: ls => (c :: l) :: ls

/-- Python '\n'.join(lines): interleave a newline between the segments. -/
def joinNL : List (List Char) → List Char
  | [] => []
  | [l] => l
  | l :: ls => l ++ '\n' :: joinNL ls

/-- Character class of Python rstrip(' />') in the patcher: space, slash or
greater-than. -/
def stripChar (c : Char) : Bool := c == ' ' || c == '/' || c == '>'

/-- Python line.rstrip(' />'): drop trailing characters from the class
stripChar. -/
def rstripL (l : List Char) : List Char :=
  (l.reverse.dropWhile stripChar).reverse

/-- Token 'url=' tested by the patcher (generate_signatures.py line 103). -/
def urlTok : List Char := ("url=").toList

/-- Token 'enclosure' tested by the patcher (generate_signatures.py line
103). -/
def enclosureTok : List Char := ("enclosure").toList

/-- Token 'sparkle:edSignature=' tested by the patcher
(generate_signatures.py line 105). -/
def sigTok : List Char := ("sparkle:edSignature=").toList

/-- Text inserted before the signature value, from the f-string at line 107
of generate_signatures.py. -/
def attrOpen : List Char := (" sparkle:edSignature=\"").toList

/-- Text inserted after the signature value, from the f-string at line 107
of generate_signatures.py. -/
def attrClose : List Char := ("\" />").toList

/-- Condition of line 103 of generate_signatures.py: the line contains
'url=', the asset name, and 'enclosure'. -/
def lineMatches (asset line : List Char) : Bool :=
  containsL urlTok line && containsL asset line && containsL enclosureTok line

/-- Condition of line 105 of generate_signatures.py: the line already
contains 'sparkle:edSignature='. -/
def hasSig (line : List Char) : Bool := containsL sigTok line

/-- Lines 106-107 of generate_signatures.py: rstrip(' />') then append the
signature attribute and a closing delimiter. -/
def addSig (line sig : List Char) : List Char :=
  rstripL line ++ attrOpen ++ sig ++ attrClose

/-- Inner loop of update_appcast_with_signatures (lines 102-109): scan the
lines; at the first line that matches the asset and does not yet carry a
signature attribute, insert the attribute and stop (the break at line 109 is
inside the no-signature branch, so already-signed matching lines are passed
over without stopping the scan). -/
def patchAsset (asset sig : List Char) : List (List Char) → List (List Char)
  | [] => []
  | line :: rest =>
    if lineMatches asset line then
      if hasSig line then line :: patchAsset asset sig rest
      else addSig line sig :: rest
    else line :: patchAsset asset sig rest

/-- One iteration of the outer loop of update_appcast_with_signatures
(lines 98-111): a falsy (empty) signature is skipped entirely; otherwise the
content is split into lines, patched for this asset, and rejoined. -/
def patchStep (content : List Char) (p : String × String) : List Char :=
  if p.2 = "" then content
  else joinNL (patchAsset p.1.toList p.2.toList (splitNL content))

/-- The pure content transformation performed by
update_appcast_with_signatures on the document text (lines 98-111 of
generate_signatures.py): fold over the signature map in insertion order. -/
def patchSigs (content : List Char) (sigs : List (String × String)) : List Char :=
  sigs.foldl patchStep content

example : splitNL ("a\nb").toList = [['a'], ['b']] := by decide
example : rstripL ("<x url=a.zip />").toList = ("<x url=a.zip").toList := by decide

/-- Splitting at newlines never yields an empty list of segments. -/
theorem splitNL_ne_nil (cs : List Char) : splitNL cs ≠ [] := by
  cases cs with
  | nil => simp [splitNL]
  | cons c rest =>
    simp only [splitNL]
    split
    · simp
    · split <;> simp

/-- Joining the segments of a split restores the original text exactly, for
every text. -/
theorem joinNL_splitNL (cs : List Char) : joinNL (splitNL cs) = cs := by
  induction cs with
  | nil => rfl
  | cons c rest ih =>
    simp only [splitNL]
    split
    · next h =>
      have hc : c = '\n' := eq_of_beq h
      cases hsr : splitNL rest with
      | nil => exact absurd hsr (splitNL_ne_nil rest)
      | cons l ls =>
        rw [hsr] at ih
        subst hc
        simp only [joinNL, List.nil_append]
        rw [ih]
    · next h =>
      cases hsr : splitNL rest with
      | nil => exact absurd hsr (splitNL_ne_nil rest)
      | cons l ls =>
        rw [hsr] at ih
        cases ls with
        | nil => simp only [joinNL] at ih ⊢; rw [ih]
        | cons l2 ls2 =>
          simp only [joinNL, List.cons_append] at ih ⊢
          rw [ih]

/-- Every segment produced by splitting at newlines is newline-free. -/
theorem splitNL_no_nl (cs : List Char) : ∀ l ∈ splitNL cs, '\n' ∉ l := by
  induction cs with
  | nil =>
    intro l hl
    simp [splitNL] at hl
    subst hl; simp
  | cons c rest ih =>
    intro l hl
    simp only [splitNL] at hl
    split at hl
    · next h =>
      rcases List.mem_cons.mp hl with h1 | h2
      · subst h1; simp
      · exact ih l h2
    · next h =>
      have hc : c ≠ '\n' := by
        intro hc; exact h (by rw [hc]; exact beq_self_eq_true _)
      cases hsr : splitNL rest with
      | nil => exact absurd hsr (splitNL_ne_nil rest)
      | cons l1 ls =>
        rw [hsr] at hl ih
        rcases List.mem_cons.mp hl with h1 | h2
        · subst h1
          intro hm
          rcases List.mem_cons.mp hm with h3 | h4
          · exact hc h3.symm
          · exact ih l1 (List.mem_cons_self _ _) h4
        · exact ih l (List.mem_cons_of_mem _ h2)

/-- Splitting a newline-free text yields that text as the sole segment. -/
theorem splitNL_of_no_nl (l : List Char) (h : '\n' ∉ l) : splitNL l = [l] := by
  induction l with
  | nil => rfl
  | cons c rest ih =>
    have hc : ¬ ((c == '\n') = true) := by
      simp only [beq_iff_eq]
      intro hc; exact h (hc ▸ List.mem_cons_self _ _)
    simp only [splitNL, if_neg hc]
    rw [ih (fun hm => h (List.mem_cons_of_mem _ hm))]

/-- Splitting text of the form (newline-free line) ++ newline ++ rest peels
off the line as the first segment. -/
theorem splitNL_append_nl (l : List Char) (h : '\n' ∉ l) (cs : List Char) :
    splitNL (l ++ '\n' :: cs) = l :: splitNL cs := by
  induction l with
  | nil => simp [splitNL]
  | cons c rest ih =>
    have hc : ¬ ((c == '\n') = true) := by
      simp only [beq_iff_eq]
      intro hc; exact h (hc ▸ List.mem_cons_self _ _)
    simp only [List.cons_append, splitNL, if_neg hc, List.append_eq]
    rw [ih (fun hm => h (List.mem_cons_of_mem _ hm))]

/-- Splitting after joining restores the segment list, provided the list is
non-empty and every segment is newline-free. -/
theorem splitNL_joinNL : ∀ (lines : List (List Char)), lines ≠ [] →
    (∀ l ∈ lines, '\n' ∉ l) → splitNL (joinNL lines) = lines := by
  intro lines
  induction lines with
  | nil => intro h _; exact absurd rfl h
  | cons l ls ih =>
    intro _ hnl
    cases ls with
    | nil =>
      simp only [joinNL]
      exact splitNL_of_no_nl l (hnl l (List.mem_cons_self _ _))
    | cons l2 ls2 =>
      simp only [joinNL]
      rw [splitNL_append_nl l (hnl l (List.mem_cons_self _ _))]
      rw [ih (by simp) (fun x hx => hnl x (List.mem_cons_of_mem _ hx))]

/-- Scanning for an asset leaves the lines unchanged when every line that
matches the asset already carries a signature attribute. -/
theorem patchAsset_id (a s : List Char) : ∀ (lines : List (List Char)),
    (∀ l ∈ lines, lineMatches a l = true → hasSig l = true) →
    patchAsset a s lines = lines := by
  intro lines
  induction lines with
  | nil => intro _; rfl
  | cons line rest ih =>
    intro h
    simp only [patchAsset]
    by_cases hm : lineMatches a line = true
    · rw [if_pos hm, if_pos (h line (List.mem_cons_self _ _) hm)]
      rw [ih (fun l hl hml => h l (List.mem_cons_of_mem _ hl) hml)]
    · rw [if_neg hm, ih (fun l hl hml => h l (List.mem_cons_of_mem _ hl) hml)]

/-- Decomposition of one scan: if the lines before position k either do not
match the asset or already carry a signature, and the line at position k
matches and carries none, then exactly that line is rewritten by addSig and
every other line is untouched (the break at line 109 stops the scan). -/
theorem patchAsset_first (a s : List Char) : ∀ (pre : List (List Char))
    (l : List Char) (post : List (List Char)),
    (∀ x ∈ pre, lineMatches a x = true → hasSig x = true) →
    lineMatches a l = true → hasSig l = false →
    patchAsset a s (pre ++ l :: post) = pre ++ addSig l s :: post := by
  intro pre
  induction pre with
  | nil =>
    intro l post _ hm hn
    simp only [List.nil_append, patchAsset, if_pos hm, hn]
    simp
  | cons p pre' ih =>
    intro l post hpre hm hn
    simp only [List.cons_append, patchAsset]
    by_cases hpm : lineMatches a p = true
    · rw [if_pos hpm, if_pos (hpre p (List.mem_cons_self _ _) hpm)]
      rw [show pre'.append (l :: post) = pre' ++ l :: post from rfl]
      rw [ih l post (fun x hx => hpre x (List.mem_cons_of_mem _ hx)) hm hn]
    · rw [if_neg hpm]
      rw [show pre'.append (l :: post) = pre' ++ l :: post from rfl]
      rw [ih l post (fun x hx => hpre x (List.mem_cons_of_mem _ hx)) hm hn]

/-- A line that does not match the asset is unchanged at its position by the
scan. -/
theorem patchAsset_getD (a s : List Char) : ∀ (lines : List (List Char)) (i : Nat),
    lineMatches a (lines.getD i []) = false →
    (patchAsset a s lines).getD i [] = lines.getD i [] := by
  intro lines
  induction lines with
  | nil => intro i _; rfl
  | cons line rest ih =>
    intro i h
    cases i with
    | zero =>
      simp only [List.getD_cons_zero] at h
      simp only [patchAsset, h]
      simp
    | succ j =>
      simp only [List.getD_cons_succ] at h ⊢
      simp only [patchAsset]
      by_cases hm : lineMatches a line = true
      · by_cases hsg : hasSig line = true
        · rw [if_pos hm, if_pos hsg]
          simp only [List.getD_cons_succ]
          exact ih j h
        · rw [if_pos hm, if_neg hsg]
          simp
      · rw [if_neg hm]
        simp only [List.getD_cons_succ]
        exact ih j h

/-- The scan never empties a non-empty line list. -/
theorem patchAsset_ne_nil (a s : List Char) (lines : List (List Char))
    (h : lines ≠ []) : patchAsset a s lines ≠ [] := by
  cases lines with
  | nil => exact absurd rfl h
  | cons line rest =>
    simp only [patchAsset]
    split
    · split <;> simp
    · simp

/-- Characters of the rstripped line come from the line. -/
theorem mem_rstripL (c : Char) (l : List Char) (h : c ∈ rstripL l) : c ∈ l := by
  simp only [rstripL, List.mem_reverse] at h
  exact List.mem_reverse.mp ((List.dropWhile_sublist _).mem h)

/-- The rewritten line contains no newline when neither the original line
nor the signature does (the inserted attribute text is newline-free). -/
theorem addSig_no_nl (l s : List Char) (hl : '\n' ∉ l) (hs : '\n' ∉ s) :
    '\n' ∉ addSig l s := by
  intro hm
  simp only [addSig, List.mem_append] at hm
  rcases hm with ((h1 | h2) | h3) | h4
  · exact hl (mem_rstripL _ _ h1)
  · exact absurd h2 (by decide)
  · exact hs h3
  · exact absurd h4 (by decide)

/-- The scan preserves newline-freedom of every line, provided the
signature text is newline-free. -/
theorem patchAsset_no_nl (a s : List Char) (hs : '\n' ∉ s) :
    ∀ (lines : List (List Char)), (∀ l ∈ lines, '\n' ∉ l) →
    ∀ x ∈ patchAsset a s lines, '\n' ∉ x := by
  intro lines
  induction lines with
  | nil => intro _ x hx; simp [patchAsset] at hx
  | cons line rest ih =>
    intro h x hx
    simp only [patchAsset] at hx
    split at hx
    · split at hx
      · rcases List.mem_cons.mp hx with h1 | h2
        · rw [h1]; exact h line (List.mem_cons_self _ _)
        · exact ih (fun l hl => h l (List.mem_cons_of_mem _ hl)) x h2
      · rcases List.mem_cons.mp hx with h1 | h2
        · subst h1
          exact addSig_no_nl line s (h line (List.mem_cons_self _ _)) hs
        · exact h x (List.mem_cons_of_mem _ h2)
    · rcases List.mem_cons.mp hx with h1 | h2
      · rw [h1]; exact h line (List.mem_cons_self _ _)
      · exact ih (fun l hl => h l (List.mem_cons_of_mem _ hl)) x h2

/-- The patch is the identity on a document in which every line that
matches a signed asset (with a non-empty signature) already carries a
signature attribute. -/
theorem patchSigs_fixed : ∀ (sigs : List (String × String)) (content : List Char),
    (∀ p ∈ sigs, p.2 ≠ "" → ∀ l ∈ splitNL content,
      lineMatches p.1.toList l = true → hasSig l = true) →
    patchSigs content sigs = content := by
  intro sigs
  induction sigs with
  | nil => intro c _; rfl
  | cons p rest ih =>
    intro c h
    have hstep : patchStep c p = c := by
      by_cases hp : p.2 = ""
      · simp [patchStep, hp]
      · simp only [patchStep, if_neg hp]
        rw [patchAsset_id _ _ _ (h p (List.mem_cons_self _ _) hp), joinNL_splitNL]
    show patchSigs (patchStep c p) rest = c
    rw [hstep]
    exact ih c (fun q hq => h q (List.mem_cons_of_mem _ hq))

/-- A line of the document that matches no signed asset is byte-for-byte
unchanged at its position by the whole patch, provided the signature texts
are newline-free. -/
theorem patchSigs_getD : ∀ (sigs : List (String × String)) (doc : List Char) (i : Nat),
    (∀ p ∈ sigs, '\n' ∉ p.2.toList) →
    (∀ p ∈ sigs, p.2 ≠ "" → lineMatches p.1.toList ((splitNL doc).getD i []) = false) →
    (splitNL (patchSigs doc sigs)).getD i [] = (splitNL doc).getD i [] := by
  intro sigs
  induction sigs with
  | nil => intro doc i _ _; rfl
  | cons p rest ih =>
    intro doc i hnl hmatch
    have hstep : (splitNL (patchStep doc p)).getD i [] = (splitNL doc).getD i [] := by
      by_cases hp : p.2 = ""
      · simp [patchStep, hp]
      · simp only [patchStep, if_neg hp]
        rw [splitNL_joinNL _ (patchAsset_ne_nil _ _ _ (splitNL_ne_nil doc))
            (patchAsset_no_nl _ _ (hnl p (List.mem_cons_self _ _)) _ (splitNL_no_nl doc))]
        exact patchAsset_getD _ _ _ i (hmatch p (List.mem_cons_self _ _) hp)
    show (splitNL (patchSigs (patchStep doc p) rest)).getD i [] = (splitNL doc).getD i []
    rw [ih (patchStep doc p) i (fun q hq => hnl q (List.mem_cons_of_mem _ hq))
        (fun q hq hq2 => by rw [hstep]; exact hmatch q (List.mem_cons_of_mem _ hq) hq2),
      hstep]

/-- Feed document used for the counterexamples to C1 and C2: two enclosure
lines that both reference the same asset name. -/
def twoEntryDoc : List Char :=
  ("<enclosure url=a.zip />\n<enclosure url=a.zip />").toList

/-- Signature map with a single signed asset, matching both lines of
twoEntryDoc. -/
def twoEntrySigs : List (String × String) := [("a.zip", "SIG")]

/-- Counterexample to C1 as stated: on a document in which two enclosure
lines reference the same signed asset, the first patch run signs only the
first line (the scan breaks after one insertion) and a second run with the
same SignatureMap modifies the second line, so patching twice differs from
patching once. -/
theorem c1_counterexample :
    patchSigs (patchSigs twoEntryDoc twoEntrySigs) twoEntrySigs ≠
      patchSigs twoEntryDoc twoEntrySigs := by decide

/-- C1, amended: applying the feed patch twice with the same SignatureMap
yields the same text as applying it once, provided that after the first
application every line that matches a signed asset already carries a
signature attribute — in particular whenever each signed asset matches at
most one enclosure line of the document.  A line that already contains a
signature attribute is indeed never modified again; idempotence fails only
because a second, still unsigned line for the same asset can absorb the
signature on the next run. -/
theorem c1_patch_idempotent_amended (doc : List Char) (sigs : List (String × String))
    (h : ∀ p ∈ sigs, p.2 ≠ "" → ∀ l ∈ splitNL (patchSigs doc sigs),
      lineMatches p.1.toList l = true → hasSig l = true) :
    patchSigs (patchSigs doc sigs) sigs = patchSigs doc sigs :=
  patchSigs_fixed sigs (patchSigs doc sigs) h

/-- Feed document with a single matching enclosure line, used to witness the
amended C1 and C2 theorems on concrete input. -/
def oneEntryDoc : List Char :=
  ("<item>\n<enclosure url=a.zip length=\"1\" />\n</item>").toList

/-- Witness for the amended C1 theorem: on a document with one matching
enclosure line, its hypothesis holds and patching twice equals patching
once. -/
theorem c1_witness :
    patchSigs (patchSigs oneEntryDoc twoEntrySigs) twoEntrySigs =
      patchSigs oneEntryDoc twoEntrySigs :=
  c1_patch_idempotent_amended oneEntryDoc twoEntrySigs (by decide)

/-- Counterexample to C2 as stated: after one patch run on a document in
which two distinct enclosure lines reference the same signed asset, the
second line still matches the asset but carries no signature attribute — it
did not gain the signature in the same run. -/
theorem c2_counterexample :
    lineMatches ("a.zip").toList
        ((splitNL (patchSigs twoEntryDoc twoEntrySigs)).getD 1 []) = true ∧
    hasSig ((splitNL (patchSigs twoEntryDoc twoEntrySigs)).getD 1 []) = false := by
  exact ⟨by decide, by decide⟩

/-- C2, amended: after one patch run with a signed asset, the first line
that matches the asset and carries no signature attribute is rewritten to
itself (rstripped of trailing space, slash and greater-than) with the
signature attribute appended exactly once, while every line before it
(matching lines already signed, or non-matching) and every line after it —
including a second entry referencing the same asset — is byte-for-byte
unchanged; and a line matching no signed asset is unchanged at its position
by the whole patch (for newline-free signature values).  Entries for assets
absent from the SignatureMap are therefore untouched, but a second entry
for the same signed asset gains its signature only on a later run. -/
theorem c2_patched_entries_amended :
    (∀ (a s : String) (doc : List Char) (pre : List (List Char)) (l : List Char)
      (post : List (List Char)),
      s ≠ "" → splitNL doc = pre ++ l :: post →
      (∀ x ∈ pre, lineMatches a.toList x = true → hasSig x = true) →
      lineMatches a.toList l = true → hasSig l = false →
      patchSigs doc [(a, s)] = joinNL (pre ++ addSig l s.toList :: post)) ∧
    (∀ (doc : List Char) (sigs : List (String × String)) (i : Nat),
      (∀ p ∈ sigs, '\n' ∉ p.2.toList) →
      (∀ p ∈ sigs, p.2 ≠ "" → lineMatches p.1.toList ((splitNL doc).getD i []) = false) →
      (splitNL (patchSigs doc sigs)).getD i [] = (splitNL doc).getD i []) := by
  constructor
  · intro a s doc pre l post hs hsplit hpre hm hn
    show patchStep doc (a, s) = _
    simp only [patchStep, if_neg hs]
    rw [hsplit, patchAsset_first a.toList s.toList pre l post hpre hm hn]
  · intro doc sigs i hnl hmatch
    exact patchSigs_getD sigs doc i hnl hmatch

/-- Witness for the amended C2 theorem at concrete input: in a three-line
document whose middle line references the signed asset, the patch rewrites
exactly the middle line, and the first line (which matches no asset) is
unchanged at its position. -/
theorem c2_witness :
    patchSigs oneEntryDoc [("a.zip", "SIG")] =
      joinNL ([("<item>").toList] ++
        addSig ("<enclosure url=a.zip length=\"1\" />").toList ("SIG").toList ::
        [("</item>").toList]) ∧
    (splitNL (patchSigs oneEntryDoc twoEntrySigs)).getD 0 [] =
      (splitNL oneEntryDoc).getD 0 [] := by
  constructor
  · exact c2_patched_entries_amended.1 "a.zip" "SIG" oneEntryDoc
      [("<item>").toList] (("<enclosure url=a.zip length=\"1\" />").toList)
      [("</item>").toList] (by decide) (by decide) (by decide) (by decide) (by decide)
  · exact c2_patched_entries_amended.2 oneEntryDoc twoEntrySigs 0 (by decide) (by decide)

/-- Feed document whose only enclosure line references the asset beta.zip;
the name a.zip is a proper substring of beta.zip, so the patcher's
containment test also fires on this line. -/
def betaDoc : List Char :=
  ("<item>\n<enclosure url=\"https://host/beta.zip\" length=\"1\" />\n</item>").toList

/-- C3: the patcher selects the entry by substring containment of the asset
name inside the enclosure line, not by exact match on the URL's filename
component: for a SignatureMap signing only a.zip — whose name is a proper
substring of beta.zip — against a document whose only enclosure URL names
beta.zip (the document nowhere contains /a.zip, so no URL has filename
a.zip), the patch modifies the document and attaches the a.zip signature to
the beta.zip entry. -/
theorem c3_substring_containment :
    containsL ("a.zip").toList ("beta.zip").toList = true ∧
    ("a.zip" : String) ≠ "beta.zip" ∧
    containsL ("a.zip").toList betaDoc = true ∧
    containsL ("/a.zip").toList betaDoc = false ∧
    patchSigs betaDoc [("a.zip", "SIGX")] ≠ betaDoc ∧
    containsL (("sparkle:edSignature=\"SIGX\"").toList)
      (patchSigs betaDoc [("a.zip", "SIGX")]) = true := by
  exact ⟨by decide, by decide, by decide, by decide, by decide, by decide⟩

/-- Observable outcome of one run of the AssetSigner script
(generate_signatures.py main, lines 122-177): the process exit code, the
content written to signatures.json (none when the run never reaches that
write), and the feed documents rewritten together with their new content. -/
structure SignerResult where
  exitCode : Nat
  signaturesFile : Option (List (String × String))
  appcastWrites : List (String × List Char)
  deriving DecidableEq

/-- Accumulation of asset signatures by the two per-file loops of main
(lines 143-159): a file whose signing call returns a truthy (non-None,
non-empty) string is appended to the map; a falsy result is skipped with a
warning. -/
def signFold (signOf : String → Option String) (files : List String) :
    List (String × String) :=
  files.foldl (fun acc name =>
    match signOf name with
    | some s => if s = "" then acc else acc ++ [(name, s)]
    | none => acc) []

/-- The AssetSigner orchestration (main of generate_signatures.py).
privateKey is the SPARKLE_PRIVATE_KEY environment variable (none when
absent); zips and dmgs are the files found by the two globs in that order;
signOf gives each signing call's return value (none models the None
returns of generate_eddsa_signature); appcastXml and appcastBeta hold the
current content of docs/appcast.xml and docs/appcast-beta.xml when those
files exist.  File writes are modelled on their success path; the failure
behaviour of the appcast write is modelled separately below. -/
def signerMain (privateKey : Option String) (assetsDirExists : Bool)
    (zips dmgs : List String) (signOf : String → Option String)
    (docsDirExists : Bool) (appcastXml appcastBeta : Option (List Char)) :
    SignerResult :=
  match privateKey with
  | none => ⟨0, none, []⟩
  | some k =>
    if k = "" then ⟨0, none, []⟩
    else if assetsDirExists = false then ⟨1, none, []⟩
    else
      let asset_signatures := signFold signOf (zips ++ dmgs)
      let writes :=
        if docsDirExists then
          (match appcastXml with
           | some c => [("docs/appcast.xml", patchSigs c asset_signatures)]
           | none => []) ++
          (match appcastBeta with
           | some c => [("docs/appcast-beta.xml", patchSigs c asset_signatures)]
           | none => [])
        else []
      ⟨0, some asset_signatures, writes⟩

/-- Per-file recording decision of the signing loops, as an Option. -/
def signEntry (signOf : String → Option String) (name : String) :
    Option (String × String) :=
  match signOf name with
  | some s => if s = "" then none else some (name, s)
  | none => none

/-- The signature-accumulating fold is the filterMap of the per-file
recording decision. -/
theorem signFold_eq_filterMap (signOf : String → Option String) :
    ∀ (files : List String) (acc : List (String × String)),
    files.foldl (fun acc name =>
      match signOf name with
      | some s => if s = "" then acc else acc ++ [(name, s)]
      | none => acc) acc = acc ++ files.filterMap (signEntry signOf) := by
  intro files
  induction files with
  | nil => intro acc; simp
  | cons n rest ih =>
    intro acc
    simp only [List.foldl_cons, List.filterMap_cons, signEntry]
    cases h : signOf n with
    | none => rw [ih]
    | some s =>
      by_cases hs : s = ""
      · simp only [if_pos hs]
        rw [ih]
      · simp only [if_neg hs]
        rw [ih]
        simp

/-- C4: when the SPARKLE_PRIVATE_KEY environment variable is absent (None)
or empty, the AssetSigner run exits with status 0, writes no signatures.json
and rewrites no feed document — a pure no-op apart from the warning
message. -/
theorem c4_no_key_noop (assetsDirExists : Bool) (zips dmgs : List String)
    (signOf : String → Option String) (docsDirExists : Bool)
    (appcastXml appcastBeta : Option (List Char)) :
    signerMain none assetsDirExists zips dmgs signOf docsDirExists
        appcastXml appcastBeta = ⟨0, none, []⟩ ∧
    signerMain (some "") assetsDirExists zips dmgs signOf docsDirExists
        appcastXml appcastBeta = ⟨0, none, []⟩ :=
  ⟨rfl, by simp [signerMain]⟩

/-- C5: with a non-empty key and an existing assets directory, a batch in
which some signing calls fail (return None) and others succeed completes
as a whole: the exit code is 0 and the persisted map contains exactly one
entry per asset whose signing call succeeded, in processing order.  A
per-asset failure never aborts the run. -/
theorem c5_partial_failure_tolerated (k : String) (zips dmgs : List String)
    (signOf : String → Option String) (docsDirExists : Bool)
    (appcastXml appcastBeta : Option (List Char))
    (hk : k ≠ "") (hno : ∀ n, signOf n ≠ some "") :
    (signerMain (some k) true zips dmgs signOf docsDirExists appcastXml
        appcastBeta).exitCode = 0 ∧
    (signerMain (some k) true zips dmgs signOf docsDirExists appcastXml
        appcastBeta).signaturesFile =
      some ((zips ++ dmgs).filterMap (fun n => (signOf n).map (fun s => (n, s)))) := by
  have hentry : ∀ n, signEntry signOf n = (signOf n).map (fun s => (n, s)) := by
    intro n
    simp only [signEntry]
    cases h : signOf n with
    | none => rfl
    | some s =>
      have hs : s ≠ "" := by
        intro hs; exact hno n (by rw [h, hs])
      simp [hs]
  have hmap : signFold signOf (zips ++ dmgs) =
      (zips ++ dmgs).filterMap (fun n => (signOf n).map (fun s => (n, s))) := by
    rw [signFold, signFold_eq_filterMap signOf (zips ++ dmgs) [], List.nil_append]
    exact List.filterMap_congr (fun n _ => hentry n)
  simp only [signerMain, if_neg hk]
  simp [hmap]

/-- Witness for C5 at concrete input: two zip assets of which one fails to
sign, plus one dmg asset; the run exits 0 and the saved map holds exactly
the two successful entries. -/
theorem c5_witness :
    (signerMain (some "KEY") true ["ok.zip", "bad.zip"] ["app.dmg"]
        (fun n => if n = "bad.zip" then none else some "S") false none
        none).exitCode = 0 ∧
    (signerMain (some "KEY") true ["ok.zip", "bad.zip"] ["app.dmg"]
        (fun n => if n = "bad.zip" then none else some "S") false none
        none).signaturesFile =
      some ((["ok.zip", "bad.zip"] ++ ["app.dmg"]).filterMap
        (fun n => ((fun n => if n = "bad.zip" then none else some "S") n).map
          (fun s => (n, s)))) :=
  c5_partial_failure_tolerated "KEY" ["ok.zip", "bad.zip"] ["app.dmg"]
    (fun n => if n = "bad.zip" then none else some "S") false none none
    (by decide)
    (fun n => by by_cases h : n = "bad.zip" <;> simp [h])

/-- C10: every entry of the persisted SignatureMap has a non-empty
signature value — an asset whose signing call returns None or the empty
string is never recorded (the truthiness guard at lines 146 and 155) — and
the patcher skips map entries with an empty signature entirely (the
truthiness guard at line 99), so it never inserts an empty signature
attribute: patching with a map equals patching with the map restricted to
its non-empty values. -/
theorem c10_no_empty_signature_values :
    (∀ (privateKey : Option String) (assetsDirExists : Bool)
       (zips dmgs : List String) (signOf : String → Option String)
       (docsDirExists : Bool) (appcastXml appcastBeta : Option (List Char))
       (entries : List (String × String)) (n s : String),
      (signerMain privateKey assetsDirExists zips dmgs signOf docsDirExists
          appcastXml appcastBeta).signaturesFile = some entries →
      (n, s) ∈ entries → s ≠ "") ∧
    (∀ (doc : List Char) (sigs : List (String × String)),
      patchSigs doc sigs = patchSigs doc (sigs.filter (fun p => !(p.2 == "")))) := by
  constructor
  · intro privateKey assetsDirExists zips dmgs signOf docsDirExists
      appcastXml appcastBeta entries n s hfile hmem
    match privateKey with
    | none => simp [signerMain] at hfile
    | some k =>
      by_cases hk : k = ""
      · simp [signerMain, hk] at hfile
      · by_cases hd : assetsDirExists = false
        · simp [signerMain, hk, hd] at hfile
        · simp only [signerMain, if_neg hk, if_neg hd, Option.some.injEq] at hfile
          subst hfile
          rw [signFold, signFold_eq_filterMap signOf (zips ++ dmgs) [],
            List.nil_append] at hmem
          rcases List.mem_filterMap.mp hmem with ⟨m, _, hm⟩
          simp only [signEntry] at hm
          cases h : signOf m with
          | none => rw [h] at hm; simp at hm
          | some t =>
            rw [h] at hm
            simp only [] at hm
            by_cases ht : t = ""
            · simp [ht] at hm
            · simp only [if_neg ht, Option.some.injEq, Prod.mk.injEq] at hm
              rw [← hm.2]
              exact ht
  · intro doc sigs
    induction sigs generalizing doc with
    | nil => rfl
    | cons p rest ih =>
      by_cases hp : p.2 = ""
      · have hstep : patchStep doc p = doc := by simp [patchStep, hp]
        show patchSigs (patchStep doc p) rest = _
        rw [hstep]
        simp only [List.filter_cons, hp]
        simp only [beq_self_eq_true, Bool.not_true]
        exact ih doc
      · have hfil : (p :: rest).filter (fun p => !(p.2 == "")) =
            p :: rest.filter (fun p => !(p.2 == "")) := by
          simp [List.filter_cons, hp]
        rw [hfil]
        show patchSigs (patchStep doc p) rest =
          patchSigs (patchStep doc p) (rest.filter (fun p => !(p.2 == "")))
        exact ih (patchStep doc p)

/-- Witness for C10 at concrete input: a run signing one asset with value S
yields a map whose entry has the non-empty value S, and patching with a
map holding only an empty signature is patching with the empty map. -/
theorem c10_witness :
    ("S" : String) ≠ "" ∧
    patchSigs oneEntryDoc [("a.zip", "")] =
      patchSigs oneEntryDoc ([("a.zip", "")].filter (fun p => !(p.2 == ""))) :=
  ⟨c10_no_empty_signature_values.1 (some "K") true ["a.zip"] []
      (fun _ => some "S") false none none [("a.zip", "S")] "a.zip" "S" rfl
      (by decide),
    c10_no_empty_signature_values.2 oneEntryDoc [("a.zip", "")]⟩

/-- Outcome of the sign_update subprocess invocation inside
generate_eddsa_signature (lines 40-44): normal exit with the given stdout,
non-zero exit (run_command with check=True raises CalledProcessError), or
some other exception raised during the invocation. -/
inductive SignToolRun where
  | success (stdout : String)
  | nonzeroExit
  | raisesOther
  deriving DecidableEq

/-- How a call to generate_eddsa_signature ends: a normal return (None
models the function's None returns) or an exception propagating to the
caller. -/
inductive SignOutcome where
  | returned (r : Option String)
  | raised
  deriving DecidableEq

/-- Observable result of one call to generate_eddsa_signature: how it ends,
and whether the transient private-key file is still on disk afterwards. -/
structure SignCallResult where
  outcome : SignOutcome
  tempFileLeft : Bool
  deriving DecidableEq

/-- Python strip() whitespace class (space, tab, newline, carriage return,
vertical tab, form feed). -/
def isPyWS (c : Char) : Bool :=
  c == ' ' || c == '\t' || c == '\n' || c == '\r' || c == '\x0b' || c == '\x0c'

/-- Python s.strip(): drop leading and trailing whitespace. -/
def stripL (l : List Char) : List Char :=
  ((l.dropWhile isPyWS).reverse.dropWhile isPyWS).reverse

/-- The signing call of generate_signatures.py (lines 24-54).  When
sign_update is not on the path the Python fallback runs instead, creating
no temporary file; pyResult is its return value (lines 56-89: it catches
every exception and returns a string or None).  Otherwise the private key
is written to a NamedTemporaryFile with delete=False before the
try/finally block opens: if that write raises, the exception propagates
(the outer handler catches only CalledProcessError) and the file is never
unlinked.  Once inside the try, the finally clause unlinks the file on all
three tool outcomes; a CalledProcessError is then caught and turned into a
None return, any other exception propagates. -/
def generate_eddsa_signature (signUpdateAvailable : Bool) (tempWriteOk : Bool)
    (toolRun : SignToolRun) (pyResult : Option String) : SignCallResult :=
  if signUpdateAvailable = false then
    ⟨SignOutcome.returned pyResult, false⟩
  else if tempWriteOk = false then
    ⟨SignOutcome.raised, true⟩
  else
    match toolRun with
    | SignToolRun.success out =>
      ⟨SignOutcome.returned (some (String.mk (stripL out.toList))), false⟩
    | SignToolRun.nonzeroExit => ⟨SignOutcome.returned none, false⟩
    | SignToolRun.raisesOther => ⟨SignOutcome.raised, false⟩

/-- Counterexample to C7 as stated: a call that takes the external-binary
path but whose write of the private key into the transient file raises
(for example on a full disk) exits by exception with the partially written
key-material file still on disk — not every exit path removes the file. -/
theorem c7_counterexample :
    (generate_eddsa_signature true false (SignToolRun.success "SIG") none).tempFileLeft
      = true := by decide

/-- C7, amended: for every signing call that takes the external-binary path
and in which the private key is successfully written to the transient
file, the file is removed before the call returns on every exit path of
the tool invocation — normal exit, non-zero exit (returning None), or any
other exception (which propagates) — so such a call never leaves the
key-material file on disk.  Only a failure of the key write itself, which
happens before the try/finally protecting the removal, leaks the file. -/
theorem c7_temp_file_removed_amended (toolRun : SignToolRun)
    (pyResult : Option String) :
    (generate_eddsa_signature true true toolRun pyResult).tempFileLeft = false := by
  cases toolRun <;> rfl

/-- Outcome of the write-back of the appcast (lines 114-115 of
generate_signatures.py): the write succeeds; or open(path, 'w') itself
fails so the file is untouched; or the write raises after open has
truncated the file and k characters have been written. -/
inductive WriteOutcome where
  | ok
  | openFails
  | failsAfter (k : Nat)
  deriving DecidableEq

/-- Observable result of one call to update_appcast_with_signatures: whether
the except-branch reported an error, and the content of the document on
disk afterwards. -/
structure AppcastUpdateResult where
  errorReported : Bool
  diskContent : List Char
  deriving DecidableEq

/-- The update_appcast_with_signatures flow (lines 91-120 of
generate_signatures.py) over a document whose on-disk content is doc: if
the read raises, the except branch prints the error and the disk is
untouched; otherwise the patched content is computed and written back with
a truncating open(path, 'w') — when open fails the disk is untouched, but
when the write raises after open, the disk holds the prefix of the new
content written so far, since the except branch does not restore the
file. -/
def update_appcast_with_signatures (doc : List Char)
    (sigs : List (String × String)) (readOk : Bool) (w : WriteOutcome) :
    AppcastUpdateResult :=
  if readOk then
    match w with
    | WriteOutcome.ok => ⟨false, patchSigs doc sigs⟩
    | WriteOutcome.openFails => ⟨true, doc⟩
    | WriteOutcome.failsAfter k => ⟨true, (patchSigs doc sigs).take k⟩
  else ⟨true, doc⟩

/-- Counterexample to C9 as stated: a write that raises after the
truncating open (for example on a full disk) leaves the feed document as a
partial prefix — here empty — of the patched content, not as it was before
the invocation. -/
theorem c9_counterexample :
    (update_appcast_with_signatures (("<a/>").toList) [] true
        (WriteOutcome.failsAfter 0)).errorReported = true ∧
    (update_appcast_with_signatures (("<a/>").toList) [] true
        (WriteOutcome.failsAfter 0)).diskContent ≠ ("<a/>").toList := by
  exact ⟨by decide, by decide⟩

/-- C9, amended: if the feed document cannot be read, or opening it for
writing fails, the failure is reported and the on-disk document is left
exactly as it was before the invocation; but if the write raises after the
truncating open succeeded, the failure is still reported while the disk is
left holding the prefix of the patched content written so far — the code
gives no atomicity guarantee for a failure in mid-write. -/
theorem c9_document_failure_amended (doc : List Char)
    (sigs : List (String × String)) (w : WriteOutcome) (k : Nat) :
    update_appcast_with_signatures doc sigs false w = ⟨true, doc⟩ ∧
    update_appcast_with_signatures doc sigs true WriteOutcome.openFails = ⟨true, doc⟩ ∧
    update_appcast_with_signatures doc sigs true (WriteOutcome.failsAfter k) =
      ⟨true, (patchSigs doc sigs).take k⟩ :=
  ⟨rfl, rfl, rfl⟩

/-- Remainder of a line after the first occurrence of a token: scan to the
first position where the token is a prefix and drop the token.  Empty when
the token does not occur. -/
def dropThroughTok (tok : List Char) : List Char → List Char
  | [] => []
  | c :: rest =>
    if isPrefixL tok (c :: rest) then (c :: rest).drop tok.length
    else dropThroughTok tok rest

/-- Text up to (excluding) the first occurrence of a token, or the whole
text when the token does not occur. -/
def upToTok (tok : List Char) : List Char → List Char
  | [] => []
  | c :: rest =>
    if isPrefixL tok (c :: rest) then []
    else c :: upToTok tok rest

/-- Python line.split(tok)[1].strip() for a line containing tok: the text
between the first occurrence of the token and the next occurrence or the
end, stripped of whitespace (generate_eddsa_keys.py lines 32 and 34). -/
def extractAfterTok (tok line : List Char) : List Char :=
  stripL (upToTok tok (dropThroughTok tok line))

/-- Token 'Private key:' scanned for at line 31 of generate_eddsa_keys.py. -/
def privKeyTok : List Char := ("Private key:").toList

/-- Token 'Public key:' scanned for at line 33 of generate_eddsa_keys.py. -/
def pubKeyTok : List Char := ("Public key:").toList

/-- Parsing loop of generate_with_sparkle_tools (lines 30-34): scan the
stdout lines; a line containing 'Private key:' (re)binds the private key to
the stripped text after the token, an elif handles 'Public key:' likewise;
both start as None and stay None when no line matches. -/
def parseKeysLines (lines : List (List Char)) : Option String × Option String :=
  lines.foldl (fun acc line =>
    if containsL privKeyTok line then
      (some (String.mk (extractAfterTok privKeyTok line)), acc.2)
    else if containsL pubKeyTok line then
      (acc.1, some (String.mk (extractAfterTok pubKeyTok line)))
    else acc) (none, none)

/-- Outcome of probing and running the Sparkle generate_keys tool
(generate_eddsa_keys.py lines 17-23): not on the path, raising
CalledProcessError, or exiting 0 with the given stdout. -/
inductive KeyToolRun where
  | unavailable
  | raises
  | succeeds (stdout : String)
  deriving DecidableEq

/-- The generate_with_sparkle_tools flow (lines 14-40): None when the tool
is absent or raises; otherwise the pair parsed from
result.stdout.strip().split('\n') — a pair of Options, either of which is
None when its marker line is missing from the output. -/
def generate_with_sparkle_tools (toolRun : KeyToolRun) :
    Option (Option String × Option String) :=
  match toolRun with
  | KeyToolRun.unavailable => none
  | KeyToolRun.raises => none
  | KeyToolRun.succeeds out => some (parseKeysLines (splitNL (stripL out.toList)))

/-- State of one of the key files after a KeyGenerator run: never touched;
created by open(path, 'w') but left empty because the write raised; or
written with the given content and permission bits. -/
inductive KeyFile where
  | absent
  | createdEmpty
  | written (content : String) (mode : Nat)
  deriving DecidableEq

/-- Permission bits of a file freshly created by open(path, 'w'): 0666
masked by the process umask. -/
def defaultMode (umask : Nat) : Nat :=
  0o666 &&& (0o777 ^^^ (umask &&& 0o777))

/-- The save_keys_to_files flow (lines 65-83 of generate_eddsa_keys.py)
given the two values unpacked from the keys tuple, which may be None when
the parse found no marker line.  Writing None raises TypeError after open
has created the file; os.chmod(private_key_file, 0o600) runs only after
both writes succeed, so on the public-key write failing the private key
file keeps its default permissions.  The third component tells whether the
function returned normally. -/
def save_keys_to_files (private_key public_key : Option String) (umask : Nat) :
    KeyFile × KeyFile × Bool :=
  match private_key with
  | none => (KeyFile.createdEmpty, KeyFile.absent, false)
  | some p =>
    match public_key with
    | none => (KeyFile.written p (defaultMode umask), KeyFile.createdEmpty, false)
    | some q => (KeyFile.written p 0o600, KeyFile.written q (defaultMode umask), true)

/-- Markdown written to github_secrets_setup.md (lines 93-106 of
generate_eddsa_keys.py), containing the private key in clear text. -/
def githubSecretsInstructions (private_key : String) : String :=
  "\n# GitHub Secrets Setup Instructions\n\n1. Go to your repository on GitHub\n2. Navigate to Settings > Secrets and variables > Actions\n3. Click \"New repository secret\"\n4. Name: SPARKLE_PRIVATE_KEY\n5. Value: " ++
    private_key ++
    "\n6. Click \"Add secret\"\n\nThis private key will be used to sign your release assets automatically.\n"

/-- Backend selection of main (lines 113-116 of generate_eddsa_keys.py):
the Sparkle tool result if truthy, else the Python backend's pair (both
components present when that backend succeeds), else None.  Note that a
parsed pair (None, None) from the Sparkle tool is a non-empty tuple, hence
truthy, and is not replaced by the Python fallback. -/
def chooseKeys (toolRun : KeyToolRun) (pythonKeys : Option (String × String)) :
    Option (Option String × Option String) :=
  match generate_with_sparkle_tools toolRun with
  | some k => some k
  | none =>
    match pythonKeys with
    | some pq => some (some pq.1, some pq.2)
    | none => none

/-- Observable outcome of one run of the KeyGenerator script: process exit
code, state of the private and public key files, and the content of the
instructions file when written. -/
structure KeysResult where
  exitCode : Nat
  privFile : KeyFile
  pubFile : KeyFile
  instructionsFile : Option String
  deriving DecidableEq

/-- The KeyGenerator orchestration (main of generate_eddsa_keys.py, lines
108-157): no keys from either backend aborts with exit 1 before any file
is touched; otherwise the tuple is unpacked and saved — an uncaught
TypeError inside save_keys_to_files ends the interpreter with exit code 1
and no instructions file — and on full success the instructions file is
written and the run exits 0.  On the success path private_key is always
some, so the getD default is never used. -/
def keysMain (toolRun : KeyToolRun) (pythonKeys : Option (String × String))
    (umask : Nat) : KeysResult :=
  match chooseKeys toolRun pythonKeys with
  | none => ⟨1, KeyFile.absent, KeyFile.absent, none⟩
  | some (priv, pub) =>
    match save_keys_to_files priv pub umask with
    | (pf, qf, false) => ⟨1, pf, qf, none⟩
    | (pf, qf, true) => ⟨0, pf, qf, some (githubSecretsInstructions (priv.getD ""))⟩

/-- C6: when neither backend yields anything (tool absent, Python backend
unavailable) the run does exit non-zero with no file written; but when the
Sparkle tool exits 0 with output containing a 'Private key:' line and no
'Public key:' line, the parsed pair (some key, None) is truthy, so main
proceeds to save it: the private key is written to disk with default
permissions (0644 under umask 022, never chmodded to 0600 because the
chmod comes after both writes), the public key file is created and left
empty by the TypeError raised when writing None, no instructions file is
written, and the interpreter exits 1 on the uncaught exception — a partial,
ambiguous state that contradicts the claim that key files are written only
after generation has fully succeeded.  The same slip makes a fully
unparseable output (pair (None, None), also truthy) leave an empty
private-key file. -/
theorem c6_partial_key_files_bug :
    (∀ umask : Nat, keysMain KeyToolRun.unavailable none umask =
      ⟨1, KeyFile.absent, KeyFile.absent, none⟩) ∧
    keysMain (KeyToolRun.succeeds "Private key: ABC") none 0o022 =
      ⟨1, KeyFile.written "ABC" 0o644, KeyFile.createdEmpty, none⟩ ∧
    keysMain (KeyToolRun.succeeds "no marker lines here") none 0o022 =
      ⟨1, KeyFile.createdEmpty, KeyFile.absent, none⟩ :=
  ⟨fun _ => rfl, by decide, by decide⟩

/-- World-read bit of the mode given to a freshly created file: the
complement of the umask's world-read bit. -/
theorem defaultMode_testBit2 (umask : Nat) :
    Nat.testBit (defaultMode umask) 2 = !Nat.testBit umask 2 := by
  have h666 : Nat.testBit 0o666 2 = true := by decide
  have h777 : Nat.testBit 0o777 2 = true := by decide
  simp only [defaultMode, Nat.testBit_land, Nat.testBit_xor, h666, h777]
  cases h : Nat.testBit umask 2 <;> simp [h]

/-- Counterexample to C8 as stated: a fully successful KeyGenerator run
under umask 077 leaves the public-key file with mode 0600 — its
world-read bit clear, so the file is not world-readable; the code never
chmods the public key file, so world-readability depends on the process
umask. -/
theorem c8_counterexample :
    (keysMain KeyToolRun.unavailable (some ("PRIV", "PUB")) 0o077).exitCode = 0 ∧
    (keysMain KeyToolRun.unavailable (some ("PRIV", "PUB")) 0o077).pubFile =
      KeyFile.written "PUB" 0o600 ∧
    Nat.testBit 0o600 2 = false := by
  exact ⟨by decide, by decide, by decide⟩

/-- C8, amended: after every successful KeyGenerator run the private-key
file has permission bits exactly 0600 (the chmod after both writes), while
the public-key file is created with the default permissions 0666 masked by
the process umask — world-readable exactly when the umask leaves the
world-read bit clear (as the conventional 022 does), not unconditionally. -/
theorem c8_key_file_modes_amended (toolRun : KeyToolRun)
    (pythonKeys : Option (String × String)) (umask : Nat)
    (h : (keysMain toolRun pythonKeys umask).exitCode = 0) :
    (∃ p, (keysMain toolRun pythonKeys umask).privFile = KeyFile.written p 0o600) ∧
    (∃ q, (keysMain toolRun pythonKeys umask).pubFile =
      KeyFile.written q (defaultMode umask)) ∧
    Nat.testBit (defaultMode umask) 2 = !Nat.testBit umask 2 := by
  refine ?_
  cases hck : chooseKeys toolRun pythonKeys with
  | none =>
    simp only [keysMain, hck] at h
    exact absurd h one_ne_zero
  | some pq =>
    obtain ⟨priv, pub⟩ := pq
    cases priv with
    | none =>
      simp only [keysMain, hck, save_keys_to_files] at h
      exact absurd h one_ne_zero
    | some p =>
      cases pub with
      | none =>
        simp only [keysMain, hck, save_keys_to_files] at h
        exact absurd h one_ne_zero
      | some q =>
        simp only [keysMain, hck, save_keys_to_files]
        exact ⟨⟨p, rfl⟩, ⟨q, rfl⟩, defaultMode_testBit2 umask⟩

/-- Witness for the amended C8 theorem: a successful run via the Python
backend under umask 022 has a 0600 private key file and a public key file
with mode 0644 whose world-read bit is set. -/
theorem c8_witness :
    (∃ p, (keysMain KeyToolRun.unavailable (some ("PRIV", "PUB")) 0o022).privFile =
      KeyFile.written p 0o600) ∧
    (∃ q, (keysMain KeyToolRun.unavailable (some ("PRIV", "PUB")) 0o022).pubFile =
      KeyFile.written q (defaultMode 0o022)) ∧
    Nat.testBit (defaultMode 0o022) 2 = !Nat.testBit 0o022 2 :=
  c8_key_file_modes_amended KeyToolRun.unavailable (some ("PRIV", "PUB")) 0o022 rfl

/-- Witness instantiating the C4 theorem at concrete input. -/
theorem c4_witness :
    signerMain none true ["a.zip"] [] (fun _ => some "S") true none none =
      ⟨0, none, []⟩ ∧
    signerMain (some "") true ["a.zip"] [] (fun _ => some "S") true none none =
      ⟨0, none, []⟩ :=
  c4_no_key_noop true ["a.zip"] [] (fun _ => some "S") true none none

/-- Witness instantiating the amended C7 theorem at concrete input. -/
theorem c7_witness :
    (generate_eddsa_signature true true SignToolRun.nonzeroExit none).tempFileLeft
      = false :=
  c7_temp_file_removed_amended SignToolRun.nonzeroExit none

/-- Witness instantiating the amended C9 theorem at concrete input. -/
theorem c9_witness :
    update_appcast_with_signatures betaDoc twoEntrySigs false WriteOutcome.ok =
      ⟨true, betaDoc⟩ ∧
    update_appcast_with_signatures betaDoc twoEntrySigs true WriteOutcome.openFails =
      ⟨true, betaDoc⟩ ∧
    update_appcast_with_signatures betaDoc twoEntrySigs true (WriteOutcome.failsAfter 3) =
      ⟨true, (patchSigs betaDoc twoEntrySigs).take 3⟩ :=
  c9_document_failure_amended betaDoc twoEntrySigs WriteOutcome.ok 3
